import Mathlib

/-!
Verification development for the SpinLab morphing scene (`src/App.js`).

The JavaScript source is shallowly embedded here:

* flat `Float32Array` position buffers are modelled at vertex granularity as
  `List V3` with `V3 = ℚ × ℚ × ℚ` (the source always reads and writes whole
  3-float vertices, stepping its loops by 3, so the vertex-level view is exact;
  rationals stand in for the source's float arithmetic, whose rounding the
  claims do not concern);
* byte buffers are `List ℕ` (one natural per byte) and 32-bit float elements
  are represented by their raw 32-bit little-endian patterns (the claims never
  depend on IEEE-754 decoding);
* `Math.sin` and `Math.sqrt` are passed in as abstract functions `ℚ → ℚ`,
  since no claim depends on their values;
* the render loop `animate` (lines 629-801) is embedded as a state-transition
  function `tick` on the morph-relevant state, mirroring the source's block
  order: `frameCount++`, the view-morph block, the morph-trigger chain, the
  shape-morph block, the ripple block.  Rendering, rotation, text fading and
  other scene-graph effects do not touch the morph state and are omitted.
-/

namespace SpinLab

abbrev V3 := ℚ × ℚ × ℚ

/-- Zero vertex; models the zero-initialised contents of `new Float32Array(n)`. -/
def v0 : V3 := ((0 : ℚ), (0 : ℚ), (0 : ℚ))

/-! ## Vertex-count reconciler (`expandToMaxVertices`, App.js lines 139-176) -/

/-- An input model as consumed by `expandToMaxVertices`: a record holding a
flat position buffer (`{ positions }` in the source). -/
structure JsModel where
  positions : List V3
deriving DecidableEq, Repr, Inhabited

/-- An output of `expandToMaxVertices`: positions plus the `vertexCount` field
the source attaches (`{ positions: ..., vertexCount: currentCount }`). -/
structure CanonModel where
  positions : List V3
  vertexCount : ℕ
deriving DecidableEq, Repr, Inhabited

/-- `Math.max(...models.map(m => m.positions.length / 3))` from line 141,
at vertex granularity.  The source seeds the spread `Math.max` with
`-Infinity`; seeding the fold with `0` agrees with it on every non-empty
model list (vertex counts are naturals). -/
def maxVertices (models : List JsModel) : ℕ :=
  (models.map (fun m => m.positions.length)).foldr max 0

/-- The body of the `models.map` callback in lines 143-175.  When the model
already has `maxV` vertices it is returned unchanged (line 147); otherwise a
fresh buffer of `maxV` vertices is built whose entry `i` is the original
vertex `i` for `i < currentCount` (lines 154-160) and the original vertex
`i % currentCount` for `currentCount ≤ i < maxV` (lines 164-172). -/
def expandOne (maxV : ℕ) (model : JsModel) : CanonModel :=
  let currentCount := model.positions.length
  if currentCount = maxV then
    { positions := model.positions, vertexCount := currentCount }
  else
    { positions :=
        (List.range maxV).map (fun i =>
          if i < currentCount then model.positions.getD i v0
          else model.positions.getD (i % currentCount) v0),
      vertexCount := currentCount }

/-- `expandToMaxVertices` (App.js lines 139-176). -/
def expandToMaxVertices (models : List JsModel) : List CanonModel :=
  models.map (expandOne (maxVertices models))

/-! ### Reconciler lemmas -/

theorem mem_le_foldr_max (l : List ℕ) (x : ℕ) (hx : x ∈ l) :
    x ≤ l.foldr max 0 := by
  induction l with
  | nil => cases hx
  | cons a l ih =>
    rcases List.mem_cons.mp hx with h | h
    · subst h; exact Nat.le_max_left _ _
    · exact le_trans (ih h) (Nat.le_max_right _ _)

theorem foldr_max_const (l : List ℕ) (n : ℕ) (h : ∀ x ∈ l, x = n)
    (hne : l ≠ []) : l.foldr max 0 = n := by
  induction l with
  | nil => exact absurd rfl hne
  | cons a l ih =>
    have ha : a = n := h a (List.mem_cons_self a l)
    by_cases hl : l = []
    · subst hl; simp [ha]
    · have := ih (fun x hx => h x (List.mem_cons_of_mem a hx)) hl
      simp [this, ha]

theorem getD_range_map {α : Type} (f : ℕ → α) (n i : ℕ) (d : α) (h : i < n) :
    ((List.range n).map f).getD i d = f i := by
  rw [List.getD_eq_getElem _ _ (by simpa using h)]
  simp

/-- Core characterisation of `expandOne`: the output buffer has `maxV`
vertices (provided the input has at most `maxV` of them), the `vertexCount`
field always records the input's own count, the input's vertices survive
unchanged as a prefix, and every padded slot `i` repeats slot `i % count`. -/
theorem expandOne_spec (maxV : ℕ) (m : JsModel)
    (hle : m.positions.length ≤ maxV) (hne : m.positions ≠ []) :
    (expandOne maxV m).positions.length = maxV ∧
    (expandOne maxV m).vertexCount = m.positions.length ∧
    (∀ i, i < m.positions.length →
      (expandOne maxV m).positions.getD i v0 = m.positions.getD i v0) ∧
    (∀ i, m.positions.length ≤ i → i < maxV →
      (expandOne maxV m).positions.getD i v0 =
        (expandOne maxV m).positions.getD (i % m.positions.length) v0) := by
  have hpos : 0 < m.positions.length := List.length_pos.mpr hne
  by_cases heq : m.positions.length = maxV
  · refine ⟨?_, ?_, ?_, ?_⟩
    · simp [expandOne, heq]
    · simp [expandOne, heq]
    · intro i _; simp [expandOne, heq]
    · intro i hi hi'
      exact absurd (lt_of_le_of_lt hi hi') (by rw [heq]; exact lt_irrefl _)
  · have hlt : m.positions.length < maxV := lt_of_le_of_ne hle heq
    refine ⟨?_, ?_, ?_, ?_⟩
    · simp [expandOne, heq]
    · simp [expandOne, heq]
    · intro i hi
      have hiv : i < maxV := lt_trans hi hlt
      simp only [expandOne, if_neg heq]
      rw [getD_range_map _ _ _ _ hiv]
      simp [hi]
    · intro i hi hiv
      have hmod : i % m.positions.length < m.positions.length :=
        Nat.mod_lt _ hpos
      have hmodv : i % m.positions.length < maxV := lt_trans hmod hlt
      simp only [expandOne, if_neg heq]
      rw [getD_range_map _ _ _ _ hiv, getD_range_map _ _ _ _ hmodv]
      rw [if_neg (not_lt.mpr hi), if_pos hmod]

theorem expandToMaxVertices_getD (models : List JsModel) (k : ℕ)
    (hk : k < models.length) :
    (expandToMaxVertices models).getD k default =
      expandOne (maxVertices models) (models.getD k default) := by
  rw [List.getD_eq_getElem _ _ (by simpa [expandToMaxVertices] using hk),
      List.getD_eq_getElem _ _ hk]
  simp [expandToMaxVertices]

theorem count_le_maxVertices (models : List JsModel) (k : ℕ)
    (hk : k < models.length) :
    (models.getD k default).positions.length ≤ maxVertices models := by
  apply mem_le_foldr_max
  rw [List.getD_eq_getElem _ _ hk]
  exact List.mem_map.mpr ⟨models[k], List.getElem_mem hk, rfl⟩

/-! ### Claim C1: reconciliation invariant -/

/-- C1: for every non-empty input list of models, each with at least one
vertex, every output of `expandToMaxVertices` has the same number of vertices,
namely the maximum input vertex count; the first `originalCount` output
vertices of each model equal its input vertices unchanged; and every output
vertex at an index `i ≥ originalCount` equals the output vertex at index
`i % originalCount`. -/
theorem reconcile_invariant (models : List JsModel)
    (_hne : models ≠ []) (hv : ∀ m ∈ models, m.positions ≠ []) :
    ∀ k, k < models.length →
      ((expandToMaxVertices models).getD k default).positions.length =
        maxVertices models ∧
      (∀ i, i < (models.getD k default).positions.length →
        ((expandToMaxVertices models).getD k default).positions.getD i v0 =
          (models.getD k default).positions.getD i v0) ∧
      (∀ i, (models.getD k default).positions.length ≤ i →
          i < maxVertices models →
        ((expandToMaxVertices models).getD k default).positions.getD i v0 =
          ((expandToMaxVertices models).getD k default).positions.getD
            (i % (models.getD k default).positions.length) v0) := by
  intro k hk
  have hmem : models.getD k default ∈ models := by
    rw [List.getD_eq_getElem _ _ hk]; exact List.getElem_mem hk
  have h := expandOne_spec (maxVertices models) (models.getD k default)
    (count_le_maxVertices models k hk) (hv _ hmem)
  rw [expandToMaxVertices_getD models k hk]
  exact ⟨h.1, h.2.2.1, h.2.2.2⟩

/-- Witness for C1 at a concrete input: a one-vertex model and a two-vertex
model reconcile to two models of two vertices each; for the first (padded)
model, vertex 0 survives unchanged and the padded vertex 1 repeats vertex
`1 % 1 = 0`. -/
theorem reconcile_invariant_witness :
    ((expandToMaxVertices [⟨[((1:ℚ),2,3)]⟩,
        ⟨[((4:ℚ),5,6), (7,8,9)]⟩]).getD 0 default).positions.length =
      maxVertices [⟨[((1:ℚ),2,3)]⟩, ⟨[((4:ℚ),5,6), (7,8,9)]⟩] ∧
    ((expandToMaxVertices [⟨[((1:ℚ),2,3)]⟩,
        ⟨[((4:ℚ),5,6), (7,8,9)]⟩]).getD 0 default).positions.getD 0 v0 =
      (([⟨[((1:ℚ),2,3)]⟩, ⟨[((4:ℚ),5,6), (7,8,9)]⟩] :
        List JsModel).getD 0 default).positions.getD 0 v0 ∧
    ((expandToMaxVertices [⟨[((1:ℚ),2,3)]⟩,
        ⟨[((4:ℚ),5,6), (7,8,9)]⟩]).getD 0 default).positions.getD 1 v0 =
      ((expandToMaxVertices [⟨[((1:ℚ),2,3)]⟩,
        ⟨[((4:ℚ),5,6), (7,8,9)]⟩]).getD 0 default).positions.getD
        (1 % (([⟨[((1:ℚ),2,3)]⟩, ⟨[((4:ℚ),5,6), (7,8,9)]⟩] :
          List JsModel).getD 0 default).positions.length) v0 :=
  have h := reconcile_invariant [⟨[((1:ℚ),2,3)]⟩, ⟨[((4:ℚ),5,6), (7,8,9)]⟩]
    (by decide) (by decide) 0 (by decide)
  ⟨h.1, h.2.1 0 (by decide), h.2.2 1 (by decide) (by decide)⟩

/-! ### Claim C5: `positions.length = vertexCount * 3` fails on the code -/

/-- Concrete model pair exhibiting the C5 discrepancy: a one-vertex model
padded to two vertices. -/
def c5Models : List JsModel := [⟨[((1:ℚ),2,3)]⟩, ⟨[((4:ℚ),5,6), (7,8,9)]⟩]

/-- C5 counterexample: the first reconciled output of `c5Models` has a
two-vertex position buffer (flat length 6) but `vertexCount = 1`, so the
claimed invariant `positions.length = vertexCount * 3` (at vertex
granularity, `positions.length = vertexCount`) is false on the code: the
source stores the ORIGINAL count in `vertexCount` (line 174), not the padded
count. -/
theorem c5_counterexample :
    ((expandToMaxVertices c5Models).getD 0 default).positions.length * 3 = 6 ∧
    ((expandToMaxVertices c5Models).getD 0 default).vertexCount * 3 = 3 ∧
    ¬ ((expandToMaxVertices c5Models).getD 0 default).positions.length * 3 =
        ((expandToMaxVertices c5Models).getD 0 default).vertexCount * 3 := by
  decide

/-- C5 as amended: for inputs with at least one vertex each, every output of
`expandToMaxVertices` has a position buffer of exactly `maxVertices` vertices
(flat length `maxVertices * 3`), its `vertexCount` field records the
original (pre-padding) vertex count, and the buffer is at least as long as
that original count — padding never truncates. -/
theorem canonical_mesh_invariant (models : List JsModel)
    (hv : ∀ m ∈ models, m.positions ≠ []) :
    ∀ k, k < models.length →
      ((expandToMaxVertices models).getD k default).positions.length =
        maxVertices models ∧
      ((expandToMaxVertices models).getD k default).vertexCount =
        (models.getD k default).positions.length ∧
      ((expandToMaxVertices models).getD k default).vertexCount ≤
        ((expandToMaxVertices models).getD k default).positions.length := by
  intro k hk
  have hmem : models.getD k default ∈ models := by
    rw [List.getD_eq_getElem _ _ hk]; exact List.getElem_mem hk
  have hle := count_le_maxVertices models k hk
  have h := expandOne_spec (maxVertices models) (models.getD k default)
    hle (hv _ hmem)
  rw [expandToMaxVertices_getD models k hk] at *
  exact ⟨h.1, h.2.1, by rw [h.1, h.2.1]; exact hle⟩

/-- Witness for the amended C5 at the concrete `c5Models` input. -/
theorem canonical_mesh_invariant_witness :
    ((expandToMaxVertices c5Models).getD 0 default).positions.length =
      maxVertices c5Models ∧
    ((expandToMaxVertices c5Models).getD 0 default).vertexCount =
      (c5Models.getD 0 default).positions.length ∧
    ((expandToMaxVertices c5Models).getD 0 default).vertexCount ≤
      ((expandToMaxVertices c5Models).getD 0 default).positions.length :=
  canonical_mesh_invariant c5Models (by decide) 0 (by decide)

/-! ### Claim C9: idempotence on already-reconciled input -/

/-- C9: if every model in the input shares one vertex count `n`, then
`expandToMaxVertices` returns every model's positions unchanged. -/
theorem reconcile_idempotent (models : List JsModel) (n : ℕ)
    (h : ∀ m ∈ models, m.positions.length = n) :
    ∀ k, k < models.length →
      ((expandToMaxVertices models).getD k default).positions =
        (models.getD k default).positions := by
  intro k hk
  have hmem : models.getD k default ∈ models := by
    rw [List.getD_eq_getElem _ _ hk]; exact List.getElem_mem hk
  have hmax : maxVertices models = n := by
    apply foldr_max_const
    · intro x hx
      rcases List.mem_map.mp hx with ⟨m, hm, rfl⟩
      exact h m hm
    · intro habs
      have : models = [] := by
        cases models with
        | nil => rfl
        | cons a l => simp at habs
      rw [this] at hk; cases hk
  rw [expandToMaxVertices_getD models k hk]
  have hcnt : (models.getD k default).positions.length = maxVertices models :=
    by rw [hmax]; exact h _ hmem
  simp only [expandOne]
  rw [if_pos hcnt]

/-- Witness for C9: two two-vertex models pass through unchanged. -/
theorem reconcile_idempotent_witness :
    ((expandToMaxVertices [⟨[((1:ℚ),2,3), (4,5,6)]⟩,
        ⟨[((7:ℚ),8,9), (1,1,1)]⟩]).getD 0 default).positions =
      (([⟨[((1:ℚ),2,3), (4,5,6)]⟩, ⟨[((7:ℚ),8,9), (1,1,1)]⟩] :
        List JsModel).getD 0 default).positions :=
  reconcile_idempotent
    [⟨[((1:ℚ),2,3), (4,5,6)]⟩, ⟨[((7:ℚ),8,9), (1,1,1)]⟩] 2 (by decide)
    0 (by decide)

/-! ## Geometry normalizer (`normalizeGeometry`, App.js lines 109-136) -/

/-- Minimum of a list of rationals.  The source folds `Math.min` starting from
`+Infinity` (line 110); seeding the fold with the first element agrees with
that on every non-empty list, and all claims about the normalizer assume a
non-empty input. -/
def minList (l : List ℚ) : ℚ :=
  match l with
  | [] => 0
  | x :: xs => xs.foldl min x

/-- Maximum of a list of rationals; see `minList` for the `-Infinity` seed. -/
def maxList (l : List ℚ) : ℚ :=
  match l with
  | [] => 0
  | x :: xs => xs.foldl max x

/-- The x-coordinates scanned by the bounding-box loop (lines 114-121). -/
def xsOf (ps : List V3) : List ℚ := ps.map (fun p => p.1)

/-- The y-coordinates scanned by the bounding-box loop. -/
def ysOf (ps : List V3) : List ℚ := ps.map (fun p => p.2.1)

/-- The z-coordinates scanned by the bounding-box loop. -/
def zsOf (ps : List V3) : List ℚ := ps.map (fun p => p.2.2)

/-- `centerX = (minX + maxX) / 2` (line 123). -/
def centerX (ps : List V3) : ℚ := (minList (xsOf ps) + maxList (xsOf ps)) / 2

/-- `centerY = (minY + maxY) / 2` (line 124). -/
def centerY (ps : List V3) : ℚ := (minList (ysOf ps) + maxList (ysOf ps)) / 2

/-- `centerZ = (minZ + maxZ) / 2` (line 125). -/
def centerZ (ps : List V3) : ℚ := (minList (zsOf ps) + maxList (zsOf ps)) / 2

/-- `scale = Math.max(maxX - minX, maxY - minY, maxZ - minZ)` (line 126). -/
def scaleOf (ps : List V3) : ℚ :=
  max (maxList (xsOf ps) - minList (xsOf ps))
    (max (maxList (ysOf ps) - minList (ysOf ps))
      (maxList (zsOf ps) - minList (zsOf ps)))

/-- The per-vertex body of the write loop (lines 130-132):
`normalized[i] = ((positions[i] - center) / scale) * size` on each axis. -/
def normMap (ps : List V3) (size : ℚ) (p : V3) : V3 :=
  ((p.1 - centerX ps) / scaleOf ps * size,
   (p.2.1 - centerY ps) / scaleOf ps * size,
   (p.2.2 - centerZ ps) / scaleOf ps * size)

/-- The write loop of lines 129-133, with the two live arrays threaded
explicitly as state: each iteration reads vertex `i` of the first component
(the input `positions` array, which the loop never writes) and stores the
transformed vertex into slot `i` of the second component (the freshly
allocated `normalized` array).  `fuel` counts the remaining iterations. -/
def normWriteLoop (f : V3 → V3) : ℕ → ℕ → List V3 × List V3 → List V3 × List V3
  | _, 0, st => st
  | i, fuel + 1, (pos, out) =>
      normWriteLoop f (i + 1) fuel (pos, out.set i (f (pos.getD i v0)))

/-- `normalizeGeometry`, state-threaded: returns the pair
(input array after the call, result array).  The result array starts as
`new Float32Array(positions.length)` (line 128: zero-filled) and is filled
slot by slot. -/
def normalizeGeometryST (ps : List V3) (size : ℚ) : List V3 × List V3 :=
  normWriteLoop (normMap ps size) 0 ps.length (ps, List.replicate ps.length v0)

/-- `normalizeGeometry` (App.js lines 109-136): the returned array. -/
def normalizeGeometry (ps : List V3) (size : ℚ) : List V3 :=
  (normalizeGeometryST ps size).snd

/-! ### Normalizer loop lemmas -/

theorem normWriteLoop_fst (f : V3 → V3) :
    ∀ (fuel i : ℕ) (pos out : List V3),
      (normWriteLoop f i fuel (pos, out)).fst = pos := by
  intro fuel
  induction fuel with
  | zero => intro i pos out; rfl
  | succ n ih => intro i pos out; exact ih (i + 1) pos _

theorem take_succ_set {α : Type} (out : List α) (i : ℕ) (v : α)
    (h : i < out.length) : (out.set i v).take (i + 1) = out.take i ++ [v] := by
  rw [List.set_eq_take_cons_drop _ h]
  have hlt : (out.take i).length = i := by rw [List.length_take]; omega
  rw [List.take_append_eq_append_take,
      List.take_of_length_le (by omega : (out.take i).length ≤ i + 1), hlt]
  have h1 : i + 1 - i = 1 := by omega
  simp [h1]

theorem normWriteLoop_snd (f : V3 → V3) :
    ∀ (fuel i : ℕ) (pos out : List V3),
      out.length = pos.length → i + fuel = pos.length →
      (normWriteLoop f i fuel (pos, out)).snd =
        out.take i ++ (pos.drop i).map f := by
  intro fuel
  induction fuel with
  | zero =>
    intro i pos out hlen hi
    have hip : i = pos.length := by omega
    subst hip
    have hred : normWriteLoop f pos.length 0 (pos, out) = (pos, out) := rfl
    rw [hred, List.drop_length, List.map_nil, List.append_nil, ← hlen,
        List.take_length]
  | succ n ih =>
    intro i pos out hlen hi
    have hip : i < pos.length := by omega
    have hio : i < out.length := by omega
    have hstep : normWriteLoop f i (n + 1) (pos, out) =
        normWriteLoop f (i + 1) n (pos, out.set i (f (pos.getD i v0))) := rfl
    rw [hstep, ih (i + 1) pos _ (by simpa using hlen) (by omega)]
    rw [take_succ_set out i _ hio]
    rw [List.drop_eq_getElem_cons hip, List.map_cons,
        List.getD_eq_getElem _ _ hip]
    simp

theorem normalizeGeometryST_eq (ps : List V3) (size : ℚ) :
    normalizeGeometryST ps size = (ps, ps.map (normMap ps size)) := by
  unfold normalizeGeometryST
  have hf := normWriteLoop_fst (normMap ps size) ps.length 0 ps
    (List.replicate ps.length v0)
  have hs := normWriteLoop_snd (normMap ps size) ps.length 0 ps
    (List.replicate ps.length v0) (by simp) (by simp)
  ext1
  · exact hf
  · rw [hs]; simp

/-! ### Affine bounding-box lemmas -/

theorem foldl_min_affine (c k : ℚ) (hk : 0 ≤ k) :
    ∀ (xs : List ℚ) (x : ℚ),
      (xs.map (fun t => (t - c) * k)).foldl min ((x - c) * k) =
        (xs.foldl min x - c) * k := by
  intro xs
  induction xs with
  | nil => intro x; rfl
  | cons y ys ih =>
    intro x
    have hhom : min ((x - c) * k) ((y - c) * k) = (min x y - c) * k := by
      rw [← min_mul_of_nonneg _ _ hk, min_sub_sub_right]
    simp only [List.map_cons, List.foldl_cons, hhom, ih]

theorem foldl_max_affine (c k : ℚ) (hk : 0 ≤ k) :
    ∀ (xs : List ℚ) (x : ℚ),
      (xs.map (fun t => (t - c) * k)).foldl max ((x - c) * k) =
        (xs.foldl max x - c) * k := by
  intro xs
  induction xs with
  | nil => intro x; rfl
  | cons y ys ih =>
    intro x
    have hhom : max ((x - c) * k) ((y - c) * k) = (max x y - c) * k := by
      rw [← max_mul_of_nonneg _ _ hk, max_sub_sub_right]
    simp only [List.map_cons, List.foldl_cons, hhom, ih]

theorem minList_affine (c k : ℚ) (hk : 0 ≤ k) (l : List ℚ) (hne : l ≠ []) :
    minList (l.map (fun t => (t - c) * k)) = (minList l - c) * k := by
  cases l with
  | nil => exact absurd rfl hne
  | cons x xs =>
    simp only [List.map_cons, minList]
    exact foldl_min_affine c k hk xs x

theorem maxList_affine (c k : ℚ) (hk : 0 ≤ k) (l : List ℚ) (hne : l ≠ []) :
    maxList (l.map (fun t => (t - c) * k)) = (maxList l - c) * k := by
  cases l with
  | nil => exact absurd rfl hne
  | cons x xs =>
    simp only [List.map_cons, maxList]
    exact foldl_max_affine c k hk xs x

theorem xsOf_norm (ps : List V3) (size : ℚ) :
    xsOf (ps.map (normMap ps size)) =
      (xsOf ps).map (fun t => (t - centerX ps) * (size / scaleOf ps)) := by
  simp only [xsOf, List.map_map]
  apply List.map_congr_left
  intro p _
  show (p.1 - centerX ps) / scaleOf ps * size =
    (p.1 - centerX ps) * (size / scaleOf ps)
  ring

theorem ysOf_norm (ps : List V3) (size : ℚ) :
    ysOf (ps.map (normMap ps size)) =
      (ysOf ps).map (fun t => (t - centerY ps) * (size / scaleOf ps)) := by
  simp only [ysOf, List.map_map]
  apply List.map_congr_left
  intro p _
  show (p.2.1 - centerY ps) / scaleOf ps * size =
    (p.2.1 - centerY ps) * (size / scaleOf ps)
  ring

theorem zsOf_norm (ps : List V3) (size : ℚ) :
    zsOf (ps.map (normMap ps size)) =
      (zsOf ps).map (fun t => (t - centerZ ps) * (size / scaleOf ps)) := by
  simp only [zsOf, List.map_map]
  apply List.map_congr_left
  intro p _
  show (p.2.2 - centerZ ps) / scaleOf ps * size =
    (p.2.2 - centerZ ps) * (size / scaleOf ps)
  ring

/-! ### Claim C2: normalization invariant -/

/-- C2: for every non-empty input with at least one strictly positive axis
extent and every non-negative target size, the output of
`normalizeGeometry` has largest bounding-box axis extent exactly `size`
(`scaleOf` of the output is the max of the three axis extents), each axis of
its bounding box is centred at the origin (`min + max = 0`), and the map is
a single uniform scaling: one scalar `k` (namely `size` divided by the
largest input extent) multiplies the recentred coordinates on all three
axes.  The hypothesis `0 ≤ size` reflects that `size` is a target dimension
(the source calls the function with `2.5` and `3.5` only). -/
theorem normalize_bbox (ps : List V3) (size : ℚ) (hne : ps ≠ [])
    (hext : 0 < maxList (xsOf ps) - minList (xsOf ps) ∨
            0 < maxList (ysOf ps) - minList (ysOf ps) ∨
            0 < maxList (zsOf ps) - minList (zsOf ps))
    (hs : 0 ≤ size) :
    scaleOf (normalizeGeometry ps size) = size ∧
    (minList (xsOf (normalizeGeometry ps size)) +
       maxList (xsOf (normalizeGeometry ps size)) = 0 ∧
     minList (ysOf (normalizeGeometry ps size)) +
       maxList (ysOf (normalizeGeometry ps size)) = 0 ∧
     minList (zsOf (normalizeGeometry ps size)) +
       maxList (zsOf (normalizeGeometry ps size)) = 0) ∧
    (∃ k, 0 ≤ k ∧ normalizeGeometry ps size =
      ps.map (fun p => ((p.1 - centerX ps) * k,
        (p.2.1 - centerY ps) * k, (p.2.2 - centerZ ps) * k))) := by
  have hscale : 0 < scaleOf ps := by
    rcases hext with h | h | h
    · exact lt_of_lt_of_le h (le_max_left _ _)
    · exact lt_of_lt_of_le h (le_trans (le_max_left _ _) (le_max_right _ _))
    · exact lt_of_lt_of_le h (le_trans (le_max_right _ _) (le_max_right _ _))
  have hsne : scaleOf ps ≠ 0 := ne_of_gt hscale
  set k := size / scaleOf ps with hkdef
  have hk : 0 ≤ k := div_nonneg hs (le_of_lt hscale)
  have hout : normalizeGeometry ps size = ps.map (normMap ps size) := by
    unfold normalizeGeometry
    rw [normalizeGeometryST_eq]
  have hxne : xsOf ps ≠ [] := by
    cases ps with
    | nil => exact absurd rfl hne
    | cons p l => simp [xsOf]
  have hyne : ysOf ps ≠ [] := by
    cases ps with
    | nil => exact absurd rfl hne
    | cons p l => simp [ysOf]
  have hzne : zsOf ps ≠ [] := by
    cases ps with
    | nil => exact absurd rfl hne
    | cons p l => simp [zsOf]
  have hminx : minList (xsOf (normalizeGeometry ps size)) =
      (minList (xsOf ps) - centerX ps) * k := by
    rw [hout, xsOf_norm, minList_affine _ _ hk _ hxne]
  have hmaxx : maxList (xsOf (normalizeGeometry ps size)) =
      (maxList (xsOf ps) - centerX ps) * k := by
    rw [hout, xsOf_norm, maxList_affine _ _ hk _ hxne]
  have hminy : minList (ysOf (normalizeGeometry ps size)) =
      (minList (ysOf ps) - centerY ps) * k := by
    rw [hout, ysOf_norm, minList_affine _ _ hk _ hyne]
  have hmaxy : maxList (ysOf (normalizeGeometry ps size)) =
      (maxList (ysOf ps) - centerY ps) * k := by
    rw [hout, ysOf_norm, maxList_affine _ _ hk _ hyne]
  have hminz : minList (zsOf (normalizeGeometry ps size)) =
      (minList (zsOf ps) - centerZ ps) * k := by
    rw [hout, zsOf_norm, minList_affine _ _ hk _ hzne]
  have hmaxz : maxList (zsOf (normalizeGeometry ps size)) =
      (maxList (zsOf ps) - centerZ ps) * k := by
    rw [hout, zsOf_norm, maxList_affine _ _ hk _ hzne]
  refine ⟨?_, ⟨?_, ?_, ?_⟩, ⟨k, hk, ?_⟩⟩
  · unfold scaleOf
    rw [hminx, hmaxx, hminy, hmaxy, hminz, hmaxz]
    have ex : (maxList (xsOf ps) - centerX ps) * k -
        (minList (xsOf ps) - centerX ps) * k =
        (maxList (xsOf ps) - minList (xsOf ps)) * k := by ring
    have ey : (maxList (ysOf ps) - centerY ps) * k -
        (minList (ysOf ps) - centerY ps) * k =
        (maxList (ysOf ps) - minList (ysOf ps)) * k := by ring
    have ez : (maxList (zsOf ps) - centerZ ps) * k -
        (minList (zsOf ps) - centerZ ps) * k =
        (maxList (zsOf ps) - minList (zsOf ps)) * k := by ring
    rw [ex, ey, ez, ← max_mul_of_nonneg _ _ hk, ← max_mul_of_nonneg _ _ hk]
    show scaleOf ps * (size / scaleOf ps) = size
    field_simp
  · rw [hminx, hmaxx]; unfold centerX; ring
  · rw [hminy, hmaxy]; unfold centerY; ring
  · rw [hminz, hmaxz]; unfold centerZ; ring
  · rw [hout]
    apply List.map_congr_left
    intro p _
    unfold normMap
    refine Prod.ext ?_ (Prod.ext ?_ ?_)
    · show (p.1 - centerX ps) / scaleOf ps * size = (p.1 - centerX ps) * k
      rw [hkdef]; ring
    · show (p.2.1 - centerY ps) / scaleOf ps * size = (p.2.1 - centerY ps) * k
      rw [hkdef]; ring
    · show (p.2.2 - centerZ ps) / scaleOf ps * size = (p.2.2 - centerZ ps) * k
      rw [hkdef]; ring

/-- Witness for C2 at the spec's own example scenario: the single triangle
`[(0,0,0),(1,0,0),(0,1,0)]` with target size `2`. -/
theorem normalize_bbox_witness :
    scaleOf (normalizeGeometry [((0:ℚ),0,0), (1,0,0), (0,1,0)] 2) = 2 ∧
    (minList (xsOf (normalizeGeometry [((0:ℚ),0,0), (1,0,0), (0,1,0)] 2)) +
       maxList (xsOf (normalizeGeometry [((0:ℚ),0,0), (1,0,0), (0,1,0)] 2)) = 0 ∧
     minList (ysOf (normalizeGeometry [((0:ℚ),0,0), (1,0,0), (0,1,0)] 2)) +
       maxList (ysOf (normalizeGeometry [((0:ℚ),0,0), (1,0,0), (0,1,0)] 2)) = 0 ∧
     minList (zsOf (normalizeGeometry [((0:ℚ),0,0), (1,0,0), (0,1,0)] 2)) +
       maxList (zsOf (normalizeGeometry [((0:ℚ),0,0), (1,0,0), (0,1,0)] 2)) = 0) ∧
    (∃ k, 0 ≤ k ∧ normalizeGeometry [((0:ℚ),0,0), (1,0,0), (0,1,0)] 2 =
      ([((0:ℚ),0,0), (1,0,0), (0,1,0)] : List V3).map
        (fun p => ((p.1 - centerX [((0:ℚ),0,0), (1,0,0), (0,1,0)]) * k,
          (p.2.1 - centerY [((0:ℚ),0,0), (1,0,0), (0,1,0)]) * k,
          (p.2.2 - centerZ [((0:ℚ),0,0), (1,0,0), (0,1,0)]) * k))) :=
  normalize_bbox [((0:ℚ),0,0), (1,0,0), (0,1,0)] 2 (by decide)
    (Or.inl (by norm_num [xsOf, minList, maxList])) (by norm_num)

/-! ### Claim C10: the normalizer does not mutate its input -/

/-- C10: in the state-threaded embedding of `normalizeGeometry`, where the
input array is part of the mutable store, the input component is returned
unchanged by the call (the write loop stores only into the freshly allocated
`normalized` array, which starts as a zero-filled buffer distinct from the
input), and the result is a new sequence of the same length as the input. -/
theorem normalize_no_mutation (ps : List V3) (size : ℚ) :
    (normalizeGeometryST ps size).fst = ps ∧
    (normalizeGeometryST ps size).snd.length = ps.length ∧
    (normalizeGeometryST ps size).snd = ps.map (normMap ps size) := by
  rw [normalizeGeometryST_eq]
  exact ⟨rfl, by simp, rfl⟩

/-! ## Chunked container reader (`loadGLB`, App.js lines 28-106)

The byte buffer is a `List ℕ`, one natural per byte.  `DataView.getUint32`
with little-endian flag is `readU32LE`; reads beyond the end of the buffer
are modelled as `0` via `getD` (the claims below never exercise them). -/

/-- One byte of the buffer (`0` beyond the end). -/
def readByte (bytes : List ℕ) (k : ℕ) : ℕ := bytes.getD k 0

/-- `DataView.getUint32(k, true)`: 4 bytes, little-endian. -/
def readU32LE (bytes : List ℕ) (k : ℕ) : ℕ :=
  readByte bytes k + 256 * readByte bytes (k + 1) +
    65536 * readByte bytes (k + 2) + 16777216 * readByte bytes (k + 3)

/-- `Uint16Array` element: 2 bytes, little-endian. -/
def readU16LE (bytes : List ℕ) (k : ℕ) : ℕ :=
  readByte bytes k + 256 * readByte bytes (k + 1)

/-- The spec's error taxonomy for the reader: the two header `throw`s of
lines 38 and 46 both map to `FormatError`. -/
inductive GLBError where
  | formatError
deriving DecidableEq, Repr

/-- Container-level slicing of `loadGLB` (lines 33-54): check the magic
number at offset 0, read the JSON chunk length at offset 12 and its type at
offset 16, reject a non-JSON first chunk, then slice out the JSON chunk
(bytes 20..20+len) and the binary chunk (starting at 28+len, with the length
read at 20+len).  On either failed check the function throws before any
chunk or mesh is produced, so the error carries no partial result. -/
def parseGLBContainer (bytes : List ℕ) :
    Except GLBError (List ℕ × List ℕ) :=
  let magic := readU32LE bytes 0
  if magic ≠ 0x46546C67 then Except.error GLBError.formatError
  else
    let jsonChunkLength := readU32LE bytes 12
    let jsonChunkType := readU32LE bytes 16
    if jsonChunkType ≠ 0x4E4F534A then Except.error GLBError.formatError
    else
      let jsonData := (bytes.drop 20).take jsonChunkLength
      let binaryChunkLength := readU32LE bytes (20 + jsonChunkLength)
      let binaryData := (bytes.drop (28 + jsonChunkLength)).take binaryChunkLength
      Except.ok (jsonData, binaryData)

/-! ## Mesh extractor (`loadGLB` lines 56-101)

The decoded JSON metadata is modelled structurally; accessor and buffer-view
lookups `gltf.accessors[i]` / `gltf.bufferViews[i]` are modelled with `getD`
against a default record (the claims only exercise in-range lookups, where
the default is irrelevant).  `x || 0` on an optional byte offset is
`Option.getD 0`.  Position data (a `Float32Array` view) is represented by
the raw 32-bit little-endian patterns of its elements. -/

/-- A glTF accessor (the consumed subset). -/
structure Accessor where
  bufferView : ℕ
  byteOffset : Option ℕ
  count : ℕ
  componentType : ℕ
deriving DecidableEq, Repr, Inhabited

/-- A glTF buffer view (the consumed subset). -/
structure BufferView where
  byteOffset : Option ℕ
deriving DecidableEq, Repr, Inhabited

/-- A mesh primitive entry of the metadata: the `POSITION` attribute's
accessor index and the optional `indices` accessor index. -/
structure Primitive where
  position : ℕ
  indices : Option ℕ
deriving DecidableEq, Repr, Inhabited

/-- The consumed subset of the decoded metadata. -/
structure Gltf where
  accessors : List Accessor
  bufferViews : List BufferView
deriving DecidableEq, Repr, Inhabited

/-- Index decoding of lines 75-94: resolve the index accessor and its buffer
view, combine the byte offsets, then dispatch on `componentType`:
`5123` reads `count` unsigned 16-bit little-endian values, `5125` reads
`count` unsigned 32-bit values, and ANY other component type leaves the
`indices` variable at its initial `null` (the source has no `else` branch). -/
def extractIndices (g : Gltf) (binary : List ℕ) (idx : ℕ) :
    Option (List ℕ) :=
  let indAccessor := g.accessors.getD idx default
  let indBufferView := g.bufferViews.getD indAccessor.bufferView default
  let indByteOffset :=
    indBufferView.byteOffset.getD 0 + indAccessor.byteOffset.getD 0
  if indAccessor.componentType = 5123 then
    some ((List.range indAccessor.count).map
      (fun i => readU16LE binary (indByteOffset + 2 * i)))
  else if indAccessor.componentType = 5125 then
    some ((List.range indAccessor.count).map
      (fun i => readU32LE binary (indByteOffset + 4 * i)))
  else none

/-- Position decoding of lines 62-72: resolve the position accessor and its
buffer view, combine the byte offsets, and view `count * 3` consecutive
32-bit float elements (represented by their raw little-endian patterns). -/
def extractPositions (g : Gltf) (binary : List ℕ) (pidx : ℕ) : List ℕ :=
  let posAccessor := g.accessors.getD pidx default
  let posBufferView := g.bufferViews.getD posAccessor.bufferView default
  let byteOffset :=
    posBufferView.byteOffset.getD 0 + posAccessor.byteOffset.getD 0
  (List.range (posAccessor.count * 3)).map
    (fun i => readU32LE binary (byteOffset + 4 * i))

/-- A `MeshPrimitive` as pushed at line 96: `{ positions, indices }` with
`indices` possibly `null`. -/
structure MeshPrim where
  positions : List ℕ
  indices : Option (List ℕ)
deriving DecidableEq, Repr

/-- The loop body of lines 61-97 for one primitive. -/
def extractPrimitive (g : Gltf) (binary : List ℕ) (p : Primitive) :
    MeshPrim :=
  { positions := extractPositions g binary p.position,
    indices :=
      match p.indices with
      | none => none
      | some idx => extractIndices g binary idx }

/-! ### Claim C6: bad magic / bad first-chunk tag -/

/-- C6: whenever the leading little-endian 32-bit word differs from the GLB
magic constant `0x46546C67`, or the first chunk's type tag at offset 16
differs from the JSON metadata tag `0x4E4F534A`, `loadGLB`'s container stage
throws (`Except.error GLBError.formatError`), producing no chunks and hence
no meshes — the error value carries no partial result. -/
theorem glb_bad_header_rejected (bytes : List ℕ)
    (h : readU32LE bytes 0 ≠ 0x46546C67 ∨ readU32LE bytes 16 ≠ 0x4E4F534A) :
    parseGLBContainer bytes = Except.error GLBError.formatError := by
  unfold parseGLBContainer
  by_cases hm : readU32LE bytes 0 ≠ 0x46546C67
  · rw [if_pos hm]
  · rw [if_neg hm]
    rcases h with h | h
    · exact absurd h (by simpa using hm)
    · rw [if_pos h]

/-- Witness for C6: a 24-byte all-zero buffer has magic `0`, which is not
the GLB constant, and is rejected with `formatError`. -/
theorem glb_bad_header_rejected_witness :
    readU32LE (List.replicate 24 0) 0 ≠ 0x46546C67 ∧
    parseGLBContainer (List.replicate 24 0) =
      Except.error GLBError.formatError :=
  ⟨by decide, glb_bad_header_rejected _ (Or.inl (by decide))⟩

/-! ### Claim C4: componentType dispatch of the index accessor -/

theorem readByte_lt (binary : List ℕ) (hbytes : ∀ b ∈ binary, b < 256)
    (k : ℕ) : readByte binary k < 256 := by
  unfold readByte
  by_cases hk : k < binary.length
  · rw [List.getD_eq_getElem _ _ hk]
    exact hbytes _ (List.getElem_mem hk)
  · rw [List.getD_eq_default _ _ (by omega)]
    omega

theorem readU16LE_lt (binary : List ℕ) (hbytes : ∀ b ∈ binary, b < 256)
    (k : ℕ) : readU16LE binary k < 65536 := by
  have h0 := readByte_lt binary hbytes k
  have h1 := readByte_lt binary hbytes (k + 1)
  unfold readU16LE
  omega

theorem readU32LE_lt (binary : List ℕ) (hbytes : ∀ b ∈ binary, b < 256)
    (k : ℕ) : readU32LE binary k < 4294967296 := by
  have h0 := readByte_lt binary hbytes k
  have h1 := readByte_lt binary hbytes (k + 1)
  have h2 := readByte_lt binary hbytes (k + 2)
  have h3 := readByte_lt binary hbytes (k + 3)
  unfold readU32LE
  omega

/-- C4 as amended: when a primitive declares an index accessor, component
type `5123` decodes the indices as `count` unsigned 16-bit little-endian
integers (each below `2^16`) and `5125` as `count` unsigned 32-bit integers
(each below `2^32`); for EVERY other componentType value the source's
`if`/`else if` (lines 81-93) has no `else`, so `indices` stays `null` and
the primitive is returned as non-indexed — no error is raised. -/
theorem index_component_type_dispatch (g : Gltf) (binary : List ℕ)
    (p : Primitive) (idx : ℕ) (acc : Accessor) (off : ℕ)
    (hidx : p.indices = some idx)
    (hacc : g.accessors.getD idx default = acc)
    (hoff : (g.bufferViews.getD acc.bufferView default).byteOffset.getD 0 +
        acc.byteOffset.getD 0 = off)
    (hbytes : ∀ b ∈ binary, b < 256) :
    (acc.componentType = 5123 →
      (extractPrimitive g binary p).indices =
        some ((List.range acc.count).map
          (fun i => readU16LE binary (off + 2 * i))) ∧
      ∀ i, i < acc.count → readU16LE binary (off + 2 * i) < 65536) ∧
    (acc.componentType = 5125 →
      (extractPrimitive g binary p).indices =
        some ((List.range acc.count).map
          (fun i => readU32LE binary (off + 4 * i))) ∧
      ∀ i, i < acc.count → readU32LE binary (off + 4 * i) < 4294967296) ∧
    (acc.componentType ≠ 5123 → acc.componentType ≠ 5125 →
      (extractPrimitive g binary p).indices = none) := by
  have hbase : (extractPrimitive g binary p).indices =
      extractIndices g binary idx := by
    simp [extractPrimitive, hidx]
  have hunf : extractIndices g binary idx =
      (if acc.componentType = 5123 then
        some ((List.range acc.count).map
          (fun i => readU16LE binary (off + 2 * i)))
      else if acc.componentType = 5125 then
        some ((List.range acc.count).map
          (fun i => readU32LE binary (off + 4 * i)))
      else none) := by
    unfold extractIndices
    rw [hacc]
    simp only [hoff]
  refine ⟨?_, ?_, ?_⟩
  · intro h
    refine ⟨?_, fun i _ => readU16LE_lt binary hbytes _⟩
    rw [hbase, hunf, if_pos h]
  · intro h
    refine ⟨?_, fun i _ => readU32LE_lt binary hbytes _⟩
    have hne : acc.componentType ≠ 5123 := by rw [h]; decide
    rw [hbase, hunf, if_neg hne, if_pos h]
  · intro h1 h2
    rw [hbase, hunf, if_neg h1, if_neg h2]

/-- Metadata for the C4 witness/counterexample: one buffer view at offset 0. -/
def c4Views : List BufferView := [⟨some 0⟩]

/-- Metadata whose single index accessor uses componentType 5121
(UNSIGNED_BYTE) — valid glTF, but not one of the two recognised codes. -/
def c4GltfU8 : Gltf :=
  { accessors := [⟨0, some 0, 3, 5121⟩], bufferViews := c4Views }

/-- A primitive declaring the index accessor 0. -/
def c4Prim : Primitive := { position := 0, indices := some 0 }

/-- C4 counterexample: with an index accessor of componentType `5121`, the
extraction does NOT fail — it returns the primitive with `indices = null`,
silently treating it as non-indexed (the source's `if`/`else if` chain at
lines 81-93 has no failing branch, and `loadGLB` contains no throw for an
unrecognised componentType). -/
theorem c4_counterexample :
    c4Prim.indices = some 0 ∧
    (c4GltfU8.accessors.getD 0 default).componentType = 5121 ∧
    (extractPrimitive c4GltfU8 [] c4Prim).indices = none := by
  decide

/-- Metadata whose single index accessor is a recognised `5123` (u16). -/
def c4GltfU16 : Gltf :=
  { accessors := [⟨0, some 0, 2, 5123⟩], bufferViews := c4Views }

/-- Index byte payload for the witness: the u16 values 7 and 263. -/
def c4Bin : List ℕ := [7, 0, 7, 1]

/-- Witness for the amended C4 at a concrete 5123-typed accessor. -/
theorem index_component_type_dispatch_witness :
    (extractPrimitive c4GltfU16 c4Bin c4Prim).indices =
      some ((List.range 2).map (fun i => readU16LE c4Bin (0 + 2 * i))) ∧
    ∀ i, i < 2 → readU16LE c4Bin (0 + 2 * i) < 65536 :=
  (index_component_type_dispatch c4GltfU16 c4Bin c4Prim 0
    ⟨0, some 0, 2, 5123⟩ 0 rfl (by decide) (by decide) (by decide)).1 rfl

/-! ## De-indexing (`init`, App.js lines 308-322)

For each index `i` the source computes `idx = indices[i] * 3` and pushes
`positions[idx], positions[idx+1], positions[idx+2]` onto the flat output.
The positions here are the flat float buffer; we model its entries as
rationals (their values are irrelevant to the claim's structure). -/

/-- The indexed branch of the combine loop (lines 309-318). -/
def deindexPositions (positions : List ℚ) : List ℕ → List ℚ
  | [] => []
  | j :: rest =>
      positions.getD (3 * j) 0 :: positions.getD (3 * j + 1) 0 ::
        positions.getD (3 * j + 2) 0 :: deindexPositions positions rest

/-! ### Claim C7: de-indexing expands in index order -/

/-- C7: for a primitive with indices all in range, de-indexing yields a flat
sequence of `3 * indices.length` floats (one triple per index, so 6 indices
give exactly 6 triples), and for every `i` the `i`-th output triple equals
the input triple at vertex `indices[i]` — iterated in index order. -/
theorem deindex_triples (positions : List ℚ) (indices : List ℕ)
    (_hin : ∀ j ∈ indices, 3 * j + 2 < positions.length) :
    (deindexPositions positions indices).length = 3 * indices.length ∧
    ∀ i, i < indices.length →
      (deindexPositions positions indices).getD (3 * i) 0 =
        positions.getD (3 * indices.getD i 0) 0 ∧
      (deindexPositions positions indices).getD (3 * i + 1) 0 =
        positions.getD (3 * indices.getD i 0 + 1) 0 ∧
      (deindexPositions positions indices).getD (3 * i + 2) 0 =
        positions.getD (3 * indices.getD i 0 + 2) 0 := by
  clear _hin
  induction indices with
  | nil =>
    exact ⟨rfl, fun i hi => absurd hi (by simp)⟩
  | cons j rest ih =>
    constructor
    · show (deindexPositions positions (j :: rest)).length = 3 * (rest.length + 1)
      have : (deindexPositions positions (j :: rest)).length =
          3 + (deindexPositions positions rest).length := by
        simp [deindexPositions]; omega
      rw [this, ih.1]; ring
    · intro i hi
      cases i with
      | zero => exact ⟨rfl, rfl, rfl⟩
      | succ n =>
        have hn : n < rest.length := by simpa using hi
        have h := ih.2 n hn
        have e0 : 3 * (n + 1) = 3 * n + 3 := by ring
        have e1 : 3 * (n + 1) + 1 = (3 * n + 1) + 3 := by ring
        have e2 : 3 * (n + 1) + 2 = (3 * n + 2) + 3 := by ring
        refine ⟨?_, ?_, ?_⟩
        · rw [e0]
          show (deindexPositions positions rest).getD (3 * n) 0 =
            positions.getD (3 * rest.getD n 0) 0
          exact h.1
        · rw [e1]
          show (deindexPositions positions rest).getD (3 * n + 1) 0 =
            positions.getD (3 * rest.getD n 0 + 1) 0
          exact h.2.1
        · rw [e2]
          show (deindexPositions positions rest).getD (3 * n + 2) 0 =
            positions.getD (3 * rest.getD n 0 + 2) 0
          exact h.2.2

/-- Flat positions of the C7 witness: 4 unique vertices. -/
def c7Positions : List ℚ :=
  [0, 0, 0, 1, 0, 0, 0, 1, 0, 1, 1, 0]

/-- Indices of the C7 witness: 2 triangles sharing vertices 1 and 2. -/
def c7Indices : List ℕ := [0, 1, 2, 1, 3, 2]

/-- Witness for C7: the spec's index-expansion scenario — 2 triangles
sharing 4 unique vertices via 6 indices de-index to `3 * 6 = 18` floats,
i.e. exactly 6 position triples, each equal to the indexed input triple. -/
theorem deindex_triples_witness :
    (deindexPositions c7Positions c7Indices).length = 3 * c7Indices.length ∧
    ∀ i, i < c7Indices.length →
      (deindexPositions c7Positions c7Indices).getD (3 * i) 0 =
        c7Positions.getD (3 * c7Indices.getD i 0) 0 ∧
      (deindexPositions c7Positions c7Indices).getD (3 * i + 1) 0 =
        c7Positions.getD (3 * c7Indices.getD i 0 + 1) 0 ∧
      (deindexPositions c7Positions c7Indices).getD (3 * i + 2) 0 =
        c7Positions.getD (3 * c7Indices.getD i 0 + 2) 0 :=
  deindex_triples c7Positions c7Indices (by decide)

/-! ## Morph scheduler (`animate`, App.js lines 629-801)

The morph-relevant state of the render loop.  `positions`, `original` and
`target` are the three parallel attribute arrays (`position`,
`originalPosition`, `targetPosition`); `viewMode` is the value of
`viewModeRef.current` read by this tick (set externally by
`handleButtonClick`); the rest are the closure variables of lines 528-538.
Rotation, text fading, shard animation and rendering never read or write
any of these fields and are omitted. -/

/-- The five values `viewModeRef.current` can take. -/
inductive ViewMode where
  | objects
  | about
  | projects
  | cv
  | icons
deriving DecidableEq, Repr

/-- The morph-relevant mutable state of the `animate` closure. -/
structure AnimState where
  positions : List V3
  original : List V3
  target : List V3
  frameCount : ℕ
  morphProgress : ℚ
  isMorphing : Bool
  isViewMorphing : Bool
  viewMorphProgress : ℚ
  ripplePhase : ℚ
  localCurrentShape : ℕ
  lastViewMode : ViewMode
  viewMode : ViewMode
deriving DecidableEq, Repr

/-- `morphDuration = 120` (line 530). -/
def morphDuration : ℚ := 120

/-- `shapeChangeInterval = 300` (line 532). -/
def shapeChangeInterval : ℕ := 300

/-- The cubic ease-in-out of lines 692-694 and 764-766:
`2p²` for `p < 0.5`, else `1 - ((-2p+2)²)/2`. -/
def ease (p : ℚ) : ℚ :=
  if p < 1/2 then 2 * p * p else 1 - (-2 * p + 2) ^ 2 / 2

/-- One vertex of the interpolation loop (lines 697-699 / 769-771):
`original + (target - original) * eased` on each axis. -/
def lerpV (e : ℚ) (o t : V3) : V3 :=
  (o.1 + (t.1 - o.1) * e,
   o.2.1 + (t.2.1 - o.2.1) * e,
   o.2.2 + (t.2.2 - o.2.2) * e)

/-- The whole interpolation loop: positions are rebuilt pointwise from the
`original` and `target` arrays (the three arrays always share one length —
the reconciled vertex count — which the theorems assume). -/
def lerpAll (o t : List V3) (e : ℚ) : List V3 :=
  List.zipWith (lerpV e) o t

/-- One vertex of the ripple loop (lines 785-794): read the vertex, take
its distance from the origin, and displace it along itself by
`sin(dist * 5 - phase * 3) * 0.05 * (1 - progress)`.  `sin` and `sqrt`
stand for `Math.sin` and `Math.sqrt`, passed in abstractly. -/
def rippleV (sinQ sqrtQ : ℚ → ℚ) (phase prog : ℚ) (v : V3) : V3 :=
  let dist := sqrtQ (v.1 * v.1 + v.2.1 * v.2.1 + v.2.2 * v.2.2)
  let ripple := sinQ (dist * 5 - phase * 3) * (1/20) * (1 - prog)
  (v.1 + v.1 * ripple, v.2.1 + v.2.1 * ripple, v.2.2 + v.2.2 * ripple)

/-- The whole ripple loop. -/
def rippleAll (sinQ sqrtQ : ℚ → ℚ) (phase prog : ℚ) (ps : List V3) :
    List V3 :=
  ps.map (rippleV sinQ sqrtQ phase prog)

/-- `TypedArray.set(src)` on an equal-or-longer destination: the source is
copied over the front of the destination (all uses in `animate` copy between
the equal-length reconciled buffers, where this is full replacement). -/
def overwrite (dst src : List V3) : List V3 :=
  src ++ dst.drop src.length

/-- Lines 690-707: the view-mode morphing block.  Note that `isViewMorphing`
is initialised `false` (line 538) and NO statement in the source ever sets
it to `true`, so in every reachable state this block is inert; it is
embedded faithfully nonetheless. -/
def tickViewMorph (s : AnimState) : AnimState :=
  if s.isViewMorphing = true ∧ s.viewMorphProgress < 1 then
    let vp := s.viewMorphProgress + 1 / morphDuration
    let s' := { s with viewMorphProgress := vp,
                       positions := lerpAll s.original s.target (ease vp) }
    if 1 ≤ vp then { s' with isViewMorphing := false } else s'
  else s

/-- Lines 709-759: the morph-trigger chain.  The `objects` branch fires on a
`shapeChangeInterval` boundary when more than one model is loaded; each of
the four non-`objects` view modes fires once, when `lastViewMode` differs,
and copies the scroll model into `target`.  Every branch resets
`morphProgress` to 0, sets `isMorphing`, and snapshots the current
`positions` into `original`.  None of them touches `isViewMorphing`. -/
def tickTrigger (modelData : List (List V3)) (scrollModel : List V3)
    (s : AnimState) : AnimState :=
  if s.viewMode = ViewMode.objects ∧
      s.frameCount % shapeChangeInterval = 0 ∧
      1 < modelData.length ∧ s.isViewMorphing = false then
    let nextShape := (s.localCurrentShape + 1) % modelData.length
    { s with morphProgress := 0, isMorphing := true,
             target := overwrite s.target (modelData.getD nextShape []),
             original := overwrite s.original s.positions,
             localCurrentShape := nextShape,
             lastViewMode := ViewMode.objects }
  else if s.viewMode = ViewMode.about ∧ s.lastViewMode ≠ ViewMode.about then
    { s with morphProgress := 0, isMorphing := true,
             target := overwrite s.target scrollModel,
             original := overwrite s.original s.positions,
             lastViewMode := ViewMode.about }
  else if s.viewMode = ViewMode.projects ∧
      s.lastViewMode ≠ ViewMode.projects then
    { s with morphProgress := 0, isMorphing := true,
             target := overwrite s.target scrollModel,
             original := overwrite s.original s.positions,
             lastViewMode := ViewMode.projects }
  else if s.viewMode = ViewMode.cv ∧ s.lastViewMode ≠ ViewMode.cv then
    { s with morphProgress := 0, isMorphing := true,
             target := overwrite s.target scrollModel,
             original := overwrite s.original s.positions,
             lastViewMode := ViewMode.cv }
  else if s.viewMode = ViewMode.icons ∧ s.lastViewMode ≠ ViewMode.icons then
    { s with morphProgress := 0, isMorphing := true,
             target := overwrite s.target scrollModel,
             original := overwrite s.original s.positions,
             lastViewMode := ViewMode.icons }
  else s

/-- Lines 761-779: the shape-morphing block — advance `morphProgress` by
`1/morphDuration`, interpolate every vertex with the eased fraction, and
drop `isMorphing` once progress reaches 1.  Guarded by `!isViewMorphing`. -/
def tickShapeMorph (s : AnimState) : AnimState :=
  if s.isMorphing = true ∧ s.morphProgress < 1 ∧
      s.isViewMorphing = false then
    let p := s.morphProgress + 1 / morphDuration
    let s' := { s with morphProgress := p,
                       positions := lerpAll s.original s.target (ease p) }
    if 1 ≤ p then { s' with isMorphing := false } else s'
  else s

/-- Lines 781-798: advance the global ripple phase by `0.05` each tick, then
apply the additive ripple exactly when the active progress lies strictly
between 0 and 1. -/
def tickRipple (sinQ sqrtQ : ℚ → ℚ) (s : AnimState) : AnimState :=
  let s' := { s with ripplePhase := s.ripplePhase + 1/20 }
  if (0 < s'.morphProgress ∧ s'.morphProgress < 1 ∧
        s'.isViewMorphing = false) ∨
      (s'.isViewMorphing = true ∧ 0 < s'.viewMorphProgress ∧
        s'.viewMorphProgress < 1) then
    let activeProgress :=
      if s'.isViewMorphing = true then s'.viewMorphProgress
      else s'.morphProgress
    { s' with positions :=
        rippleAll sinQ sqrtQ s'.ripplePhase activeProgress s'.positions }
  else s'

/-- One pass of the `animate` body (lines 629-801) restricted to the state
it actually mutates: `frameCount++` (line 687), the view-morph block, the
trigger chain, the shape-morph block, the ripple block, in source order. -/
def tick (sinQ sqrtQ : ℚ → ℚ) (modelData : List (List V3))
    (scrollModel : List V3) (s : AnimState) : AnimState :=
  tickRipple sinQ sqrtQ
    (tickShapeMorph
      (tickTrigger modelData scrollModel
        (tickViewMorph { s with frameCount := s.frameCount + 1 })))

/-! ### Scheduler helper lemmas -/

theorem ease_zero : ease 0 = 0 := by norm_num [ease]

theorem ease_one : ease 1 = 1 := by norm_num [ease]

theorem lerpV_zero (o t : V3) : lerpV 0 o t = o := by
  unfold lerpV
  refine Prod.ext ?_ (Prod.ext ?_ ?_)
  all_goals ring

theorem lerpV_one (o t : V3) : lerpV 1 o t = t := by
  unfold lerpV
  refine Prod.ext ?_ (Prod.ext ?_ ?_)
  all_goals ring

theorem lerpAll_zero :
    ∀ (o t : List V3), o.length = t.length → lerpAll o t 0 = o := by
  intro o
  induction o with
  | nil => intro t h; rfl
  | cons a o ih =>
    intro t h
    cases t with
    | nil => cases h
    | cons b t =>
      show lerpV 0 a b :: lerpAll o t 0 = a :: o
      rw [lerpV_zero, ih t (by simpa using h)]

theorem lerpAll_one :
    ∀ (o t : List V3), o.length = t.length → lerpAll o t 1 = t := by
  intro o
  induction o with
  | nil =>
    intro t h
    cases t with
    | nil => rfl
    | cons b t => cases h
  | cons a o ih =>
    intro t h
    cases t with
    | nil => cases h
    | cons b t =>
      show lerpV 1 a b :: lerpAll o t 1 = b :: t
      rw [lerpV_one, ih t (by simpa using h)]

theorem overwrite_of_le (dst src : List V3) (h : dst.length ≤ src.length) :
    overwrite dst src = src := by
  unfold overwrite
  rw [List.drop_eq_nil_of_le h, List.append_nil]

theorem tickViewMorph_inert (s : AnimState) (h : s.isViewMorphing = false) :
    tickViewMorph s = s := by
  unfold tickViewMorph
  rw [if_neg]
  simp [h]

theorem tickTrigger_silent (md : List (List V3)) (scroll : List V3)
    (s : AnimState) (h : s.viewMode = s.lastViewMode)
    (hobj : s.viewMode ≠ ViewMode.objects) :
    tickTrigger md scroll s = s := by
  have c1 : ¬(s.viewMode = ViewMode.objects ∧
      s.frameCount % shapeChangeInterval = 0 ∧
      1 < md.length ∧ s.isViewMorphing = false) := fun hc => hobj hc.1
  have c2 : ¬(s.viewMode = ViewMode.about ∧
      s.lastViewMode ≠ ViewMode.about) := fun hc => hc.2 (by rw [← h, hc.1])
  have c3 : ¬(s.viewMode = ViewMode.projects ∧
      s.lastViewMode ≠ ViewMode.projects) :=
    fun hc => hc.2 (by rw [← h, hc.1])
  have c4 : ¬(s.viewMode = ViewMode.cv ∧
      s.lastViewMode ≠ ViewMode.cv) := fun hc => hc.2 (by rw [← h, hc.1])
  have c5 : ¬(s.viewMode = ViewMode.icons ∧
      s.lastViewMode ≠ ViewMode.icons) := fun hc => hc.2 (by rw [← h, hc.1])
  unfold tickTrigger
  rw [if_neg c1, if_neg c2, if_neg c3, if_neg c4, if_neg c5]


theorem tick_completes (sinQ sqrtQ : ℚ → ℚ) (md : List (List V3))
    (scroll : List V3) (s : AnimState)
    (hV : s.isViewMorphing = false) (hM : s.isMorphing = true)
    (hvm : s.viewMode = ViewMode.about)
    (hlast : s.lastViewMode = ViewMode.about)
    (hlen : s.original.length = s.target.length)
    (hp : s.morphProgress = 119/120) :
    (tick sinQ sqrtQ md scroll s).positions = s.target ∧
    (tick sinQ sqrtQ md scroll s).morphProgress = 1 ∧
    (tick sinQ sqrtQ md scroll s).isMorphing = false := by
  unfold tick
  rw [tickViewMorph_inert { s with frameCount := s.frameCount + 1 } hV,
      tickTrigger_silent md scroll { s with frameCount := s.frameCount + 1 }
        (show s.viewMode = s.lastViewMode by rw [hvm, hlast])
        (show s.viewMode ≠ ViewMode.objects by rw [hvm]; decide)]
  norm_num [tickShapeMorph, tickRipple, hV, hM, hp, morphDuration]
  rw [ease_one, lerpAll_one _ _ hlen]

theorem tick_interior (sinQ sqrtQ : ℚ → ℚ) (md : List (List V3))
    (scroll : List V3) (s : AnimState)
    (hV : s.isViewMorphing = false) (hM : s.isMorphing = true)
    (hvm : s.viewMode = ViewMode.about)
    (hlast : s.lastViewMode = ViewMode.about)
    (h0 : 0 ≤ s.morphProgress) (h1 : s.morphProgress + 1/120 < 1) :
    (tick sinQ sqrtQ md scroll s).positions =
      rippleAll sinQ sqrtQ (s.ripplePhase + 1/20) (s.morphProgress + 1/120)
        (lerpAll s.original s.target (ease (s.morphProgress + 1/120))) := by
  have hlt : s.morphProgress < 1 := by linarith
  have hnle : ¬ (1:ℚ) ≤ s.morphProgress + 1/120 := by linarith
  have hpos : (0:ℚ) < s.morphProgress + 1/120 := by linarith
  unfold tick
  rw [tickViewMorph_inert { s with frameCount := s.frameCount + 1 } hV,
      tickTrigger_silent md scroll { s with frameCount := s.frameCount + 1 }
        (show s.viewMode = s.lastViewMode by rw [hvm, hlast])
        (show s.viewMode ≠ ViewMode.objects by rw [hvm]; decide)]
  norm_num [tickShapeMorph, tickRipple, hV, hM, hlt, hnle, hpos, h1,
    morphDuration]

theorem tick_idle (sinQ sqrtQ : ℚ → ℚ) (md : List (List V3))
    (scroll : List V3) (s : AnimState)
    (hV : s.isViewMorphing = false) (hM : s.isMorphing = false)
    (hp : s.morphProgress = 0)
    (hvm : s.viewMode = ViewMode.about)
    (hlast : s.lastViewMode = ViewMode.about) :
    (tick sinQ sqrtQ md scroll s).positions = s.positions := by
  unfold tick
  rw [tickViewMorph_inert { s with frameCount := s.frameCount + 1 } hV,
      tickTrigger_silent md scroll { s with frameCount := s.frameCount + 1 }
        (show s.viewMode = s.lastViewMode by rw [hvm, hlast])
        (show s.viewMode ≠ ViewMode.objects by rw [hvm]; decide)]
  norm_num [tickShapeMorph, tickRipple, hV, hM, hp, morphDuration]

theorem tickTrigger_snapshot (md : List (List V3)) (scroll : List V3)
    (s : AnimState) (hvm : s.viewMode = ViewMode.about)
    (hlast : s.lastViewMode ≠ ViewMode.about)
    (hlen : s.original.length ≤ s.positions.length) :
    (tickTrigger md scroll s).morphProgress = 0 ∧
    (tickTrigger md scroll s).original = s.positions := by
  have c1 : ¬(s.viewMode = ViewMode.objects ∧
      s.frameCount % shapeChangeInterval = 0 ∧
      1 < md.length ∧ s.isViewMorphing = false) := by
    intro hc
    rw [hvm] at hc
    exact absurd hc.1 (by decide)
  unfold tickTrigger
  rw [if_neg c1, if_pos ⟨hvm, hlast⟩]
  exact ⟨rfl, overwrite_of_le _ _ hlen⟩

/-! ### Claim C3: morph endpoint exactness and the ripple guard -/

/-- C3: the eased fraction is `2p²` below one half and `1 - ((-2p+2)²)/2`
above, giving `ease 0 = 0` and `ease 1 = 1`; at eased fraction 0 the
interpolation returns the original buffer exactly, and at the instant a
morph starts (progress reset to 0) the original buffer is a snapshot of the
current one, so `current = original` at progress 0; a tick that carries the
progress to 1 ends with `current = target` exactly and skips the ripple; a
tick whose progress lands strictly inside `(0,1)` applies the additive
ripple on top of the interpolation; and a tick in the idle endpoint state
(progress 0, no morph active) leaves the buffer untouched. -/
theorem morph_endpoint_exactness :
    (ease 0 = 0 ∧ ease 1 = 1) ∧
    (∀ o t : List V3, o.length = t.length → lerpAll o t (ease 0) = o) ∧
    (∀ (md : List (List V3)) (scroll : List V3) (s : AnimState),
      s.viewMode = ViewMode.about → s.lastViewMode ≠ ViewMode.about →
      s.original.length ≤ s.positions.length →
      (tickTrigger md scroll s).morphProgress = 0 ∧
      (tickTrigger md scroll s).original = s.positions) ∧
    (∀ (sinQ sqrtQ : ℚ → ℚ) (md : List (List V3)) (scroll : List V3)
        (s : AnimState),
      s.isViewMorphing = false → s.isMorphing = true →
      s.viewMode = ViewMode.about → s.lastViewMode = ViewMode.about →
      s.original.length = s.target.length → s.morphProgress = 119/120 →
      (tick sinQ sqrtQ md scroll s).positions = s.target ∧
      (tick sinQ sqrtQ md scroll s).morphProgress = 1 ∧
      (tick sinQ sqrtQ md scroll s).isMorphing = false) ∧
    (∀ (sinQ sqrtQ : ℚ → ℚ) (md : List (List V3)) (scroll : List V3)
        (s : AnimState),
      s.isViewMorphing = false → s.isMorphing = true →
      s.viewMode = ViewMode.about → s.lastViewMode = ViewMode.about →
      0 ≤ s.morphProgress → s.morphProgress + 1/120 < 1 →
      (tick sinQ sqrtQ md scroll s).positions =
        rippleAll sinQ sqrtQ (s.ripplePhase + 1/20)
          (s.morphProgress + 1/120)
          (lerpAll s.original s.target (ease (s.morphProgress + 1/120)))) ∧
    (∀ (sinQ sqrtQ : ℚ → ℚ) (md : List (List V3)) (scroll : List V3)
        (s : AnimState),
      s.isViewMorphing = false → s.isMorphing = false →
      s.morphProgress = 0 → s.viewMode = ViewMode.about →
      s.lastViewMode = ViewMode.about →
      (tick sinQ sqrtQ md scroll s).positions = s.positions) :=
  ⟨⟨ease_zero, ease_one⟩,
   fun o t h => by rw [ease_zero]; exact lerpAll_zero o t h,
   fun md scroll s hvm hlast hlen =>
     tickTrigger_snapshot md scroll s hvm hlast hlen,
   fun sinQ sqrtQ md scroll s hV hM hvm hlast hlen hp =>
     tick_completes sinQ sqrtQ md scroll s hV hM hvm hlast hlen hp,
   fun sinQ sqrtQ md scroll s hV hM hvm hlast h0 h1 =>
     tick_interior sinQ sqrtQ md scroll s hV hM hvm hlast h0 h1,
   fun sinQ sqrtQ md scroll s hV hM hp hvm hlast =>
     tick_idle sinQ sqrtQ md scroll s hV hM hp hvm hlast⟩

/-- Abstract stand-in for `Math.sin` / `Math.sqrt` in concrete witnesses. -/
def zeroFn : ℚ → ℚ := fun _ => 0

/-- Concrete state for the C3 witness: a one-vertex morph one tick away
from completion. -/
def c3State : AnimState :=
  { positions := [((1:ℚ), 0, 0)], original := [((0:ℚ), 0, 0)],
    target := [((2:ℚ), 0, 0)],
    frameCount := 10, morphProgress := 119/120, isMorphing := true,
    isViewMorphing := false, viewMorphProgress := 0, ripplePhase := 0,
    localCurrentShape := 0, lastViewMode := ViewMode.about,
    viewMode := ViewMode.about }

/-- Witness for C3: from `c3State` the next tick lands exactly on the
target buffer with progress 1 and the morph flag cleared. -/
theorem morph_endpoint_exactness_witness :
    (tick zeroFn zeroFn [] [] c3State).positions = c3State.target ∧
    (tick zeroFn zeroFn [] [] c3State).morphProgress = 1 ∧
    (tick zeroFn zeroFn [] [] c3State).isMorphing = false :=
  morph_endpoint_exactness.2.2.2.1 zeroFn zeroFn [] [] c3State
    rfl rfl rfl rfl rfl rfl

/-! ### Claim C8: mode change during an in-flight shape morph -/

theorem tickTrigger_modeChange (md : List (List V3)) (scroll : List V3)
    (s : AnimState) (hobj : s.viewMode ≠ ViewMode.objects)
    (hchange : s.viewMode ≠ s.lastViewMode) :
    tickTrigger md scroll s =
      { s with morphProgress := 0, isMorphing := true,
               target := overwrite s.target scroll,
               original := overwrite s.original s.positions,
               lastViewMode := s.viewMode } := by
  have hv : s.viewMode = ViewMode.about ∨ s.viewMode = ViewMode.projects ∨
      s.viewMode = ViewMode.cv ∨ s.viewMode = ViewMode.icons := by
    cases hx : s.viewMode
    · exact absurd hx hobj
    · exact Or.inl rfl
    · exact Or.inr (Or.inl rfl)
    · exact Or.inr (Or.inr (Or.inl rfl))
    · exact Or.inr (Or.inr (Or.inr rfl))
  have c1 : ¬(s.viewMode = ViewMode.objects ∧
      s.frameCount % shapeChangeInterval = 0 ∧
      1 < md.length ∧ s.isViewMorphing = false) := fun hc => hobj hc.1
  rcases hv with h | h | h | h
  · have hlastne : s.lastViewMode ≠ ViewMode.about :=
      fun hl => hchange (h.trans hl.symm)
    unfold tickTrigger
    rw [if_neg c1, if_pos ⟨h, hlastne⟩, h]
  · have hlastne : s.lastViewMode ≠ ViewMode.projects :=
      fun hl => hchange (h.trans hl.symm)
    have cAbout : ¬(s.viewMode = ViewMode.about ∧
        s.lastViewMode ≠ ViewMode.about) := by
      intro hc; rw [h] at hc; exact absurd hc.1 (by decide)
    unfold tickTrigger
    rw [if_neg c1, if_neg cAbout, if_pos ⟨h, hlastne⟩, h]
  · have hlastne : s.lastViewMode ≠ ViewMode.cv :=
      fun hl => hchange (h.trans hl.symm)
    have cAbout : ¬(s.viewMode = ViewMode.about ∧
        s.lastViewMode ≠ ViewMode.about) := by
      intro hc; rw [h] at hc; exact absurd hc.1 (by decide)
    have cProj : ¬(s.viewMode = ViewMode.projects ∧
        s.lastViewMode ≠ ViewMode.projects) := by
      intro hc; rw [h] at hc; exact absurd hc.1 (by decide)
    unfold tickTrigger
    rw [if_neg c1, if_neg cAbout, if_neg cProj, if_pos ⟨h, hlastne⟩, h]
  · have hlastne : s.lastViewMode ≠ ViewMode.icons :=
      fun hl => hchange (h.trans hl.symm)
    have cAbout : ¬(s.viewMode = ViewMode.about ∧
        s.lastViewMode ≠ ViewMode.about) := by
      intro hc; rw [h] at hc; exact absurd hc.1 (by decide)
    have cProj : ¬(s.viewMode = ViewMode.projects ∧
        s.lastViewMode ≠ ViewMode.projects) := by
      intro hc; rw [h] at hc; exact absurd hc.1 (by decide)
    have cCv : ¬(s.viewMode = ViewMode.cv ∧
        s.lastViewMode ≠ ViewMode.cv) := by
      intro hc; rw [h] at hc; exact absurd hc.1 (by decide)
    unfold tickTrigger
    rw [if_neg c1, if_neg cAbout, if_neg cProj, if_neg cCv,
        if_pos ⟨h, hlastne⟩, h]

theorem tick_mode_change_core (sinQ sqrtQ : ℚ → ℚ) (md : List (List V3))
    (scroll : List V3) (s : AnimState)
    (hobj : s.viewMode ≠ ViewMode.objects)
    (hchange : s.viewMode ≠ s.lastViewMode)
    (hV : s.isViewMorphing = false)
    (hlt : s.target.length ≤ scroll.length)
    (hlo : s.original.length ≤ s.positions.length) :
    (tick sinQ sqrtQ md scroll s).morphProgress = 1/120 ∧
    (tick sinQ sqrtQ md scroll s).original = s.positions ∧
    (tick sinQ sqrtQ md scroll s).target = scroll ∧
    (tick sinQ sqrtQ md scroll s).lastViewMode = s.viewMode ∧
    (tick sinQ sqrtQ md scroll s).isMorphing = true ∧
    (tick sinQ sqrtQ md scroll s).isViewMorphing = false ∧
    (tick sinQ sqrtQ md scroll s).viewMorphProgress =
      s.viewMorphProgress := by
  have hov1 : overwrite s.original s.positions = s.positions :=
    overwrite_of_le _ _ hlo
  have hov2 : overwrite s.target scroll = scroll :=
    overwrite_of_le _ _ hlt
  unfold tick
  rw [tickViewMorph_inert { s with frameCount := s.frameCount + 1 } hV,
      tickTrigger_modeChange md scroll
        { s with frameCount := s.frameCount + 1 } hobj hchange]
  norm_num [tickShapeMorph, tickRipple, hV, hov1, hov2, morphDuration]

/-- C8 as amended: whenever a view-mode change request naming any
non-`objects` mode (`about`, `projects`, `CV` or `icons`) different from
the previously active mode arrives while a shape morph is in flight, the
next tick restarts the single shared morph: `morphProgress` is reset to 0
(then advanced once within the same tick, to `1/120`), the current buffer
is snapshotted into `original`, the mode's associated mesh (the scroll
model, for all four modes) is copied into `target`, and the prior shape
morph's partial progress and target are discarded and never resumed.
However the code performs this through the SHAPE-morph state
(`isMorphing`): the dedicated `isViewMorphing` flag stays `false` and
`viewMorphProgress` is untouched — no statement in the source ever sets
`isViewMorphing`, so the distinct ViewMorphing state of the claim is never
entered (its update branch, lines 690-707, is dead code). -/
theorem mode_change_preempts (sinQ sqrtQ : ℚ → ℚ) (md : List (List V3))
    (scroll : List V3) (s : AnimState)
    (hobj : s.viewMode ≠ ViewMode.objects)
    (hchange : s.viewMode ≠ s.lastViewMode)
    (_hM : s.isMorphing = true)
    (_h0 : 0 < s.morphProgress) (_h1 : s.morphProgress < 1)
    (hV : s.isViewMorphing = false)
    (hlt : s.target.length ≤ scroll.length)
    (hlo : s.original.length ≤ s.positions.length) :
    (tick sinQ sqrtQ md scroll s).morphProgress = 1/120 ∧
    (tick sinQ sqrtQ md scroll s).original = s.positions ∧
    (tick sinQ sqrtQ md scroll s).target = scroll ∧
    (tick sinQ sqrtQ md scroll s).lastViewMode = s.viewMode ∧
    (tick sinQ sqrtQ md scroll s).isMorphing = true ∧
    (tick sinQ sqrtQ md scroll s).isViewMorphing = false ∧
    (tick sinQ sqrtQ md scroll s).viewMorphProgress =
      s.viewMorphProgress :=
  tick_mode_change_core sinQ sqrtQ md scroll s hobj hchange hV hlt hlo

/-- Concrete state for C8: a one-vertex shape morph halfway through
(`morphProgress = 1/2`) when the view mode changes to `about`. -/
def c8State : AnimState :=
  { positions := [((1:ℚ), 0, 0)], original := [((0:ℚ), 0, 0)],
    target := [((2:ℚ), 0, 0)],
    frameCount := 7, morphProgress := 1/2, isMorphing := true,
    isViewMorphing := false, viewMorphProgress := 0, ripplePhase := 0,
    localCurrentShape := 0, lastViewMode := ViewMode.objects,
    viewMode := ViewMode.about }

/-- The scroll mesh for the C8 scenario. -/
def c8Scroll : List V3 := [((5:ℚ), 5, 5)]

/-- C8 counterexample: from `c8State` — a mode-change request (`about`,
differing from the previously active `objects`) arriving while a shape
morph is in flight at progress `1/2` — the next tick does NOT enter the
ViewMorphing state: `isViewMorphing` remains `false` and
`viewMorphProgress` remains `0`, refuting the claim that the scheduler
"immediately enters the ViewMorphing state". -/
theorem c8_counterexample :
    c8State.viewMode = ViewMode.about ∧
    c8State.lastViewMode = ViewMode.objects ∧
    c8State.isMorphing = true ∧
    0 < c8State.morphProgress ∧ c8State.morphProgress < 1 ∧
    (tick zeroFn zeroFn [] c8Scroll c8State).isViewMorphing = false ∧
    (tick zeroFn zeroFn [] c8Scroll c8State).viewMorphProgress = 0 :=
  ⟨rfl, rfl, rfl, by norm_num [c8State], by norm_num [c8State],
   (tick_mode_change_core zeroFn zeroFn [] c8Scroll c8State
     (show ViewMode.about ≠ ViewMode.objects by decide)
     (show ViewMode.about ≠ ViewMode.objects by decide)
     rfl (le_refl 1) (le_refl 1)).2.2.2.2.2.1,
   (tick_mode_change_core zeroFn zeroFn [] c8Scroll c8State
     (show ViewMode.about ≠ ViewMode.objects by decide)
     (show ViewMode.about ≠ ViewMode.objects by decide)
     rfl (le_refl 1) (le_refl 1)).2.2.2.2.2.2⟩

/-- Witness for the amended C8 at the concrete `c8State` scenario. -/
theorem mode_change_preempts_witness :
    (tick zeroFn zeroFn [] c8Scroll c8State).morphProgress = 1/120 ∧
    (tick zeroFn zeroFn [] c8Scroll c8State).original = c8State.positions ∧
    (tick zeroFn zeroFn [] c8Scroll c8State).target = c8Scroll ∧
    (tick zeroFn zeroFn [] c8Scroll c8State).lastViewMode =
      c8State.viewMode ∧
    (tick zeroFn zeroFn [] c8Scroll c8State).isMorphing = true ∧
    (tick zeroFn zeroFn [] c8Scroll c8State).isViewMorphing = false ∧
    (tick zeroFn zeroFn [] c8Scroll c8State).viewMorphProgress =
      c8State.viewMorphProgress :=
  mode_change_preempts zeroFn zeroFn [] c8Scroll c8State
    (show ViewMode.about ≠ ViewMode.objects by decide)
    (show ViewMode.about ≠ ViewMode.objects by decide)
    rfl (show (0:ℚ) < 1/2 by norm_num) (show (1:ℚ)/2 < 1 by norm_num)
    rfl (le_refl 1) (le_refl 1)
